import Mathlib

/-!
Shallow embedding of the spooldir engine (spooldir.c) and proofs about it.

The spool keeps items as regular files in four subdirectories (tmp, new,
wip, cur).  Directories are modelled as finite sets of entry names; the
machine-level file descriptors that do not influence the claims are kept
as integers.  `renameat` is the Linux `renameat2(..., RENAME_NOREPLACE)`
wrapper defined by the macro at spooldir.c:54-60, so it fails instead of
overwriting an existing destination entry.
-/

namespace Spooldir

/-- errno value ENOENT (no such file or directory). -/
def ENOENT : Nat := 2

/-- errno value EFAULT (bad address; models a NULL-pointer dereference). -/
def EFAULT : Nat := 14

/-- errno value EEXIST (file exists). -/
def EEXIST : Nat := 17

/-- errno value EINVAL (invalid argument). -/
def EINVAL : Nat := 22

/-- stdio EOF constant, returned by spooldir_pick on exhaustion. -/
def CEOF : Int := -1

/-- Transaction status, enum spooldir_status as used by spooldir.c
(TMP, WIP, NEW, CUR plus the FIN sentinel). -/
inductive Status where
  | TMP
  | WIP
  | NEW
  | CUR
  | FIN
deriving DecidableEq, Repr

/-- A spool key (struct _spoolkey): the entry-name bytes plus whether the
key holds its own copy of them (spoolkey_new_from_mem with copy=true). -/
structure SpoolKey where
  bytes : String
  copied : Bool
deriving DecidableEq, Repr

/-- spoolkey_new_from_string(str, copy, take_ownership): builds a key from
an entry name; with copy=true the key owns a private copy of the bytes. -/
def spoolkey_new_from_string (str : String) (copy : Bool) (takeOwnership : Bool) : SpoolKey :=
  { bytes := str, copied := copy || takeOwnership && copy }

/-- A transaction (spooltxn): status, the owned key (none = NULL sentinel
after release or take), and the owned file descriptor (-1 = sentinel). -/
structure SpoolTxn where
  status : Status
  key : Option SpoolKey
  fd : Int
deriving DecidableEq, Repr

/-- spooltxn_take_key: the caller takes ownership of the key; the
transaction field becomes the NULL sentinel. -/
def spooltxn_take_key (txn : SpoolTxn) : Option SpoolKey × SpoolTxn :=
  (txn.key, { txn with key := none })

/-- spooltxn_take_fd: the caller takes ownership of the descriptor; the
transaction field becomes the -1 sentinel. -/
def spooltxn_take_fd (txn : SpoolTxn) : Int × SpoolTxn :=
  (txn.fd, { txn with fd := -1 })

/-- The on-disk state of a spool: the set of entry names present in each
of the four subdirectories. -/
structure SpoolState where
  tmp : Finset String
  new : Finset String
  wip : Finset String
  cur : Finset String
deriving DecidableEq

/-- renameat as remapped on Linux (spooldir.c:58-59) to
renameat2(..., RENAME_NOREPLACE): atomically moves `name` from `src` to
`dst`; fails with ENOENT when the source entry is absent and with EEXIST
instead of overwriting when a destination entry of that name exists. -/
def renameat (src dst : Finset String) (name : String) :
    Except Nat (Finset String × Finset String) :=
  if name ∈ src then
    if name ∈ dst then .error EEXIST
    else .ok (src.erase name, insert name dst)
  else .error ENOENT

/-- unlinkat: removes `name` from directory `s`; ENOENT when absent. -/
def unlinkat (s : Finset String) (name : String) : Except Nat (Finset String) :=
  if name ∈ s then .ok (s.erase name) else .error ENOENT

/-- Result of spooldir_commit / spooldir_rollback: C return value, errno,
the transaction and filesystem afterwards, and whether spoolkey_free /
close were called on the transaction's owned key / descriptor. -/
structure TxnOpResult where
  retval : Int
  errno : Nat
  txn : SpoolTxn
  fs : SpoolState
  freedKey : Bool
  closedFd : Bool
deriving DecidableEq

/-- The common tail of spooldir_commit and spooldir_rollback
(spooldir.c:472-479 and 511-518): free the key if still owned and set it
to NULL, close the descriptor if still owned and set it to -1. -/
def releaseTxn (retval : Int) (errno : Nat) (txn : SpoolTxn) (fs : SpoolState) : TxnOpResult :=
  { retval := retval
    errno := errno
    txn := { txn with key := none, fd := if 0 ≤ txn.fd then -1 else txn.fd }
    fs := fs
    freedKey := txn.key.isSome
    closedFd := 0 ≤ txn.fd }

/-- Models dereferencing txn->key->bytes when the key is NULL: undefined
behaviour in C, unreachable for transactions produced by add or pick.
Kept total here as a distinguished faulting result. -/
def nullKeyFault (txn : SpoolTxn) (fs : SpoolState) : TxnOpResult :=
  { retval := -1, errno := EFAULT, txn := txn, fs := fs
    freedKey := false, closedFd := false }

/-- The invalid-status arm of commit/rollback.  The api_check_return_val
guard lives in dbg.h, which is not part of the core sources; modelled
from the spec (section 7): a wrong transaction status is an invalid
argument error, EINVAL, with no filesystem change and no release of the
transaction's resources. -/
def invalidStateResult (txn : SpoolTxn) (fs : SpoolState) : TxnOpResult :=
  { retval := -1, errno := EINVAL, txn := txn, fs := fs
    freedKey := false, closedFd := false }

/-- spooldir_commit (spooldir.c:443-481): from TMP, set status to NEW and
renameat tmp to new; from WIP, set status to CUR and renameat wip to cur;
from NEW, CUR or FIN, fail with the invalid-state result; afterwards (for
the eligible statuses) release the owned key and descriptor. -/
def spooldir_commit (fs : SpoolState) (txn : SpoolTxn) : TxnOpResult :=
  match txn.status with
  | .TMP =>
    match txn.key with
    | none => nullKeyFault txn fs
    | some k =>
      let txn := { txn with status := Status.NEW }
      match renameat fs.tmp fs.new k.bytes with
      | .ok (t, n) => releaseTxn 0 0 txn { fs with tmp := t, new := n }
      | .error e => releaseTxn (-1) e txn fs
  | .WIP =>
    match txn.key with
    | none => nullKeyFault txn fs
    | some k =>
      let txn := { txn with status := Status.CUR }
      match renameat fs.wip fs.cur k.bytes with
      | .ok (w, c) => releaseTxn 0 0 txn { fs with wip := w, cur := c }
      | .error e => releaseTxn (-1) e txn fs
  | _ => invalidStateResult txn fs

/-- spooldir_rollback (spooldir.c:484-520): from TMP, unlinkat the file
from tmp (status unchanged); from WIP, set status to NEW and renameat wip
back to new; from NEW, CUR or FIN, fail with the invalid-state result;
afterwards (for the eligible statuses) release the owned key and
descriptor. -/
def spooldir_rollback (fs : SpoolState) (txn : SpoolTxn) : TxnOpResult :=
  match txn.status with
  | .TMP =>
    match txn.key with
    | none => nullKeyFault txn fs
    | some k =>
      match unlinkat fs.tmp k.bytes with
      | .ok t => releaseTxn 0 0 txn { fs with tmp := t }
      | .error e => releaseTxn (-1) e txn fs
  | .WIP =>
    match txn.key with
    | none => nullKeyFault txn fs
    | some k =>
      let txn := { txn with status := Status.NEW }
      match renameat fs.wip fs.new k.bytes with
      | .ok (w, n) => releaseTxn 0 0 txn { fs with wip := w, new := n }
      | .error e => releaseTxn (-1) e txn fs
  | _ => invalidStateResult txn fs

/-- The two directories relink_and_open operates on: the source (entries
are linked away from it) and the destination. -/
structure RelinkState where
  src : Finset String
  dst : Finset String
deriving DecidableEq

/-- External failure injection for the three filesystem calls inside
relink_and_open: each field, when set, makes the corresponding call fail
with that errno for a reason other than the modelled name conditions
(for example EIO or EMLINK). -/
structure RelinkOracle where
  linkFail : Option Nat
  openFail : Option Nat
  unlinkFail : Option Nat
deriving DecidableEq

/-- linkat(src_fd, name, dst_fd, name, 0): hard-links `name` into the
destination; ENOENT when the source entry is absent, EEXIST (the
duplicate guard, never overwriting) when a destination entry of that name
already exists. -/
def linkat (o : RelinkOracle) (s : RelinkState) (name : String) : Except Nat RelinkState :=
  if name ∉ s.src then .error ENOENT
  else if name ∈ s.dst then .error EEXIST
  else
    match o.linkFail with
    | some e => .error e
    | none => .ok { s with dst := insert name s.dst }

/-- openat(dst_fd, name, O_RDWR): opens the freshly linked destination
entry read/write.  The concrete descriptor number is immaterial to the
claims; a fixed fresh value stands in for it. -/
def openatDst (o : RelinkOracle) : Except Nat Int :=
  match o.openFail with
  | some e => .error e
  | none => .ok 3

/-- unlinkat(src_fd, name, 0): removes the source directory entry. -/
def unlinkatSrc (o : RelinkOracle) (s : RelinkState) (name : String) : Except Nat RelinkState :=
  if name ∉ s.src then .error ENOENT
  else
    match o.unlinkFail with
    | some e => .error e
    | none => .ok { s with src := s.src.erase name }

/-- Result of relink_and_open: on success the read/write descriptor to
the relinked destination entry and the final directories; on failure the
C return value (-errno), the errno, the final directories, and whether a
file handle was left open. -/
inductive RelinkRes where
  | ok (fd : Int) (rw : Bool) (s : RelinkState)
  | err (retval : Int) (errno : Nat) (s : RelinkState) (openHandle : Bool)
deriving DecidableEq

/-- relink_and_open (spooldir.c:372-403): link the file into the
destination, open it there, unlink it from the source; on an openat
failure remove the destination link; on an unlinkat failure remove the
destination link and close the opened descriptor. -/
def relink_and_open (o : RelinkOracle) (name : String) (s : RelinkState) : RelinkRes :=
  match linkat o s name with
  | .error e => .err (-(e : Int)) e s false
  | .ok s1 =>
    match openatDst o with
    | .error e => .err (-(e : Int)) e { s1 with dst := s1.dst.erase name } false
    | .ok fd =>
      match unlinkatSrc o s1 name with
      | .error e => .err (-(e : Int)) e { s1 with dst := s1.dst.erase name } false
      | .ok s2 => .ok fd true s2

/-- When the destination already holds an entry of the same name, the
relink fails at step 1 (the linkat duplicate guard) with the state
untouched and no handle open. -/
theorem relink_dst_guard (o : RelinkOracle) (name : String) (s : RelinkState)
    (hdst : name ∈ s.dst) :
    ∃ e : Nat, relink_and_open o name s = .err (-(e : Int)) e s false := by
  by_cases hsrc : name ∈ s.src
  · exact ⟨EEXIST, by simp [relink_and_open, linkat, hsrc, hdst]⟩
  · exact ⟨ENOENT, by simp [relink_and_open, linkat, hsrc]⟩

/-- C3: if the fallback relink primitive fails at any step, the operation
is unwound to a net no-op: the directories are exactly as before the call
(the entry still present only at the source) and no file handle remains
open; and step 1 fails, rather than overwriting, whenever a destination
entry of the same name already exists. -/
theorem relink_and_open_unwind (o : RelinkOracle) (name : String) (s : RelinkState) :
    (∀ (r : Int) (e : Nat) (s' : RelinkState) (hOpen : Bool),
       relink_and_open o name s = .err r e s' hOpen → s' = s ∧ hOpen = false) ∧
    (name ∈ s.dst →
       ∃ e : Nat, relink_and_open o name s = .err (-(e : Int)) e s false) := by
  constructor
  · intro r e s' hOpen h
    by_cases hsrc : name ∈ s.src
    · by_cases hdst : name ∈ s.dst
      · simp [relink_and_open, linkat, hsrc, hdst] at h
        exact ⟨h.2.2.1.symm, h.2.2.2⟩
      · cases hlf : o.linkFail with
        | some e0 =>
          simp [relink_and_open, linkat, hsrc, hdst, hlf] at h
          exact ⟨h.2.2.1.symm, h.2.2.2⟩
        | none =>
          cases hof : o.openFail with
          | some e1 =>
            simp [relink_and_open, linkat, openatDst, hsrc, hdst, hlf, hof,
              Finset.erase_insert hdst] at h
            exact ⟨h.2.2.1.symm, h.2.2.2⟩
          | none =>
            cases huf : o.unlinkFail with
            | some e2 =>
              simp [relink_and_open, linkat, openatDst, unlinkatSrc, hsrc, hdst, hlf, hof,
                huf, Finset.erase_insert hdst] at h
              exact ⟨h.2.2.1.symm, h.2.2.2⟩
            | none =>
              simp [relink_and_open, linkat, openatDst, unlinkatSrc, hsrc, hdst, hlf, hof,
                huf] at h
    · simp [relink_and_open, linkat, hsrc] at h
      exact ⟨h.2.2.1.symm, h.2.2.2⟩
  · exact relink_dst_guard o name s

/-- Concrete instantiation of relink_and_open_unwind: with "b" already
present at the destination, relinking "b" fails without touching either
directory and without leaving a handle open. -/
theorem relink_and_open_unwind_witness :
    ∃ e : Nat, relink_and_open { linkFail := none, openFail := none, unlinkFail := none } "b"
        { src := {"b"}, dst := {"b"} } =
      RelinkRes.err (-(e : Int)) e { src := {"b"}, dst := {"b"} } false :=
  (relink_and_open_unwind { linkFail := none, openFail := none, unlinkFail := none } "b"
    { src := {"b"}, dst := {"b"} }).2 (by simp)

/-- C1: commit follows the state table.  From TMP it moves the key's file
from tmp to new and the status becomes NEW; from WIP it moves the file
from wip to cur and the status becomes CUR; from NEW, CUR or FIN it
performs no filesystem change and returns the invalid-state error. -/
theorem commit_state_table (fs : SpoolState) (txn : SpoolTxn) (k : SpoolKey)
    (hk : txn.key = some k) :
    (txn.status = Status.TMP → k.bytes ∈ fs.tmp → k.bytes ∉ fs.new →
      (spooldir_commit fs txn).fs =
        { fs with tmp := fs.tmp.erase k.bytes, new := insert k.bytes fs.new } ∧
      (spooldir_commit fs txn).txn.status = Status.NEW ∧
      (spooldir_commit fs txn).retval = 0) ∧
    (txn.status = Status.WIP → k.bytes ∈ fs.wip → k.bytes ∉ fs.cur →
      (spooldir_commit fs txn).fs =
        { fs with wip := fs.wip.erase k.bytes, cur := insert k.bytes fs.cur } ∧
      (spooldir_commit fs txn).txn.status = Status.CUR ∧
      (spooldir_commit fs txn).retval = 0) ∧
    (txn.status = Status.NEW ∨ txn.status = Status.CUR ∨ txn.status = Status.FIN →
      (spooldir_commit fs txn).fs = fs ∧
      (spooldir_commit fs txn).retval = -1 ∧
      (spooldir_commit fs txn).errno = EINVAL) := by
  refine ⟨?_, ?_, ?_⟩
  · intro hs h1 h2
    simp [spooldir_commit, hs, hk, renameat, h1, h2, releaseTxn]
  · intro hs h1 h2
    simp [spooldir_commit, hs, hk, renameat, h1, h2, releaseTxn]
  · rintro (hs | hs | hs) <;>
      simp [spooldir_commit, hs, invalidStateResult, EINVAL]

/-- Concrete instantiation of commit_state_table: committing a TMP
transaction for key "a" over a spool whose tmp directory holds "a". -/
theorem commit_state_table_witness :
    (spooldir_commit
        { tmp := {"a"}, new := ∅, wip := ∅, cur := ∅ }
        { status := Status.TMP, key := some ⟨"a", true⟩, fd := 3 }).txn.status
      = Status.NEW ∧
    (spooldir_commit
        { tmp := {"a"}, new := ∅, wip := ∅, cur := ∅ }
        { status := Status.TMP, key := some ⟨"a", true⟩, fd := 3 }).retval = 0 := by
  have h := commit_state_table
    { tmp := {"a"}, new := ∅, wip := ∅, cur := ∅ }
    { status := Status.TMP, key := some ⟨"a", true⟩, fd := 3 }
    ⟨"a", true⟩ rfl
  have h1 := h.1 rfl (by decide) (by decide)
  exact ⟨h1.2.1, h1.2.2⟩

/-- C2: rollback follows the state table.  From TMP it unlinks the key's
file directly from tmp; from WIP it moves the file from wip back to new
and the status becomes NEW; from NEW, CUR or FIN it performs no
filesystem change and returns the invalid-state error. -/
theorem rollback_state_table (fs : SpoolState) (txn : SpoolTxn) (k : SpoolKey)
    (hk : txn.key = some k) :
    (txn.status = Status.TMP → k.bytes ∈ fs.tmp →
      (spooldir_rollback fs txn).fs = { fs with tmp := fs.tmp.erase k.bytes } ∧
      (spooldir_rollback fs txn).retval = 0) ∧
    (txn.status = Status.WIP → k.bytes ∈ fs.wip → k.bytes ∉ fs.new →
      (spooldir_rollback fs txn).fs =
        { fs with wip := fs.wip.erase k.bytes, new := insert k.bytes fs.new } ∧
      (spooldir_rollback fs txn).txn.status = Status.NEW ∧
      (spooldir_rollback fs txn).retval = 0) ∧
    (txn.status = Status.NEW ∨ txn.status = Status.CUR ∨ txn.status = Status.FIN →
      (spooldir_rollback fs txn).fs = fs ∧
      (spooldir_rollback fs txn).retval = -1 ∧
      (spooldir_rollback fs txn).errno = EINVAL) := by
  refine ⟨?_, ?_, ?_⟩
  · intro hs h1
    simp [spooldir_rollback, hs, hk, unlinkat, h1, releaseTxn]
  · intro hs h1 h2
    simp [spooldir_rollback, hs, hk, renameat, h1, h2, releaseTxn]
  · rintro (hs | hs | hs) <;>
      simp [spooldir_rollback, hs, invalidStateResult, EINVAL]

/-- Concrete instantiation of rollback_state_table: rolling back a WIP
transaction for key "a" moves it from wip back to new. -/
theorem rollback_state_table_witness :
    (spooldir_rollback
        { tmp := ∅, new := ∅, wip := {"a"}, cur := ∅ }
        { status := Status.WIP, key := some ⟨"a", true⟩, fd := 3 }).txn.status
      = Status.NEW ∧
    (spooldir_rollback
        { tmp := ∅, new := ∅, wip := {"a"}, cur := ∅ }
        { status := Status.WIP, key := some ⟨"a", true⟩, fd := 3 }).retval = 0 := by
  have h := rollback_state_table
    { tmp := ∅, new := ∅, wip := {"a"}, cur := ∅ }
    { status := Status.WIP, key := some ⟨"a", true⟩, fd := 3 }
    ⟨"a", true⟩ rfl
  have h2 := h.2.1 rfl (by decide) (by decide)
  exact ⟨h2.2.1, h2.2.2⟩

/-- C7: for a commit- or rollback-eligible transaction (status TMP or
WIP), commit and rollback free the owned key and close the owned
descriptor, setting them to the NULL and -1 sentinels, for every
filesystem state (hence also when the underlying operation fails); a key
or descriptor whose ownership was taken beforehand (key = none, fd = -1)
is not released. -/
theorem commit_rollback_release (fs : SpoolState) (txn : SpoolTxn)
    (h : txn.status = Status.TMP ∨ txn.status = Status.WIP) :
    ((∃ k, txn.key = some k) →
      (spooldir_commit fs txn).freedKey = true ∧
      (spooldir_commit fs txn).txn.key = none ∧
      ((spooldir_commit fs txn).closedFd = true ↔ 0 ≤ txn.fd) ∧
      (0 ≤ txn.fd → (spooldir_commit fs txn).txn.fd = -1) ∧
      (spooldir_rollback fs txn).freedKey = true ∧
      (spooldir_rollback fs txn).txn.key = none ∧
      ((spooldir_rollback fs txn).closedFd = true ↔ 0 ≤ txn.fd) ∧
      (0 ≤ txn.fd → (spooldir_rollback fs txn).txn.fd = -1)) ∧
    (txn.key = none →
      (spooldir_commit fs txn).freedKey = false ∧
      (spooldir_rollback fs txn).freedKey = false) ∧
    (txn.fd = -1 →
      (spooldir_commit fs txn).closedFd = false ∧
      (spooldir_rollback fs txn).closedFd = false) := by
  refine ⟨?_, ?_, ?_⟩
  · rintro ⟨k, hk⟩
    rcases h with hs | hs
    · cases hc : renameat fs.tmp fs.new k.bytes with
      | ok p =>
        cases hu : unlinkat fs.tmp k.bytes with
        | ok t =>
          simp [spooldir_commit, spooldir_rollback, hs, hk, hc, hu, releaseTxn]
          intro hfd
          simp [hfd]
        | error e =>
          simp [spooldir_commit, spooldir_rollback, hs, hk, hc, hu, releaseTxn]
          intro hfd
          simp [hfd]
      | error e =>
        cases hu : unlinkat fs.tmp k.bytes with
        | ok t =>
          simp [spooldir_commit, spooldir_rollback, hs, hk, hc, hu, releaseTxn]
          intro hfd
          simp [hfd]
        | error e2 =>
          simp [spooldir_commit, spooldir_rollback, hs, hk, hc, hu, releaseTxn]
          intro hfd
          simp [hfd]
    · cases hc : renameat fs.wip fs.cur k.bytes with
      | ok p =>
        cases hr : renameat fs.wip fs.new k.bytes with
        | ok q =>
          simp [spooldir_commit, spooldir_rollback, hs, hk, hc, hr, releaseTxn]
          intro hfd
          simp [hfd]
        | error e =>
          simp [spooldir_commit, spooldir_rollback, hs, hk, hc, hr, releaseTxn]
          intro hfd
          simp [hfd]
      | error e =>
        cases hr : renameat fs.wip fs.new k.bytes with
        | ok q =>
          simp [spooldir_commit, spooldir_rollback, hs, hk, hc, hr, releaseTxn]
          intro hfd
          simp [hfd]
        | error e2 =>
          simp [spooldir_commit, spooldir_rollback, hs, hk, hc, hr, releaseTxn]
          intro hfd
          simp [hfd]
  · intro hk
    rcases h with hs | hs <;>
      simp [spooldir_commit, spooldir_rollback, hs, hk, nullKeyFault]
  · intro hfd
    rcases h with hs | hs
    · cases hk : txn.key with
      | none => simp [spooldir_commit, spooldir_rollback, hs, hk, nullKeyFault]
      | some k =>
        cases hc : renameat fs.tmp fs.new k.bytes <;>
          cases hu : unlinkat fs.tmp k.bytes <;>
            simp [spooldir_commit, spooldir_rollback, hs, hk, hc, hu, releaseTxn, hfd]
    · cases hk : txn.key with
      | none => simp [spooldir_commit, spooldir_rollback, hs, hk, nullKeyFault]
      | some k =>
        cases hc : renameat fs.wip fs.cur k.bytes <;>
          cases hr : renameat fs.wip fs.new k.bytes <;>
            simp [spooldir_commit, spooldir_rollback, hs, hk, hc, hr, releaseTxn, hfd]

/-- Concrete instantiation of commit_rollback_release: committing a TMP
transaction over an empty spool (so the underlying renameat fails with
ENOENT) still frees the owned key and closes the owned descriptor. -/
theorem commit_rollback_release_witness :
    (spooldir_commit { tmp := ∅, new := ∅, wip := ∅, cur := ∅ }
        { status := Status.TMP, key := some ⟨"a", true⟩, fd := 3 }).freedKey = true ∧
    (spooldir_commit { tmp := ∅, new := ∅, wip := ∅, cur := ∅ }
        { status := Status.TMP, key := some ⟨"a", true⟩, fd := 3 }).txn.key = none ∧
    (spooldir_commit { tmp := ∅, new := ∅, wip := ∅, cur := ∅ }
        { status := Status.TMP, key := some ⟨"a", true⟩, fd := 3 }).closedFd = true ∧
    (spooldir_commit { tmp := ∅, new := ∅, wip := ∅, cur := ∅ }
        { status := Status.TMP, key := some ⟨"a", true⟩, fd := 3 }).retval = -1 := by
  have h := (commit_rollback_release { tmp := ∅, new := ∅, wip := ∅, cur := ∅ }
    { status := Status.TMP, key := some ⟨"a", true⟩, fd := 3 } (Or.inl rfl)).1
    ⟨⟨"a", true⟩, rfl⟩
  refine ⟨h.1, h.2.1, h.2.2.1.mpr (by decide), ?_⟩
  simp [spooldir_commit, renameat, releaseTxn]

/-- C8: no transition overwrites an existing destination entry.  When the
destination directory already holds an entry with the transaction's key
name, commit from TMP (publish into new), commit from WIP (complete into
cur), rollback from WIP (redeliver into new) and the pick relink (claim
into wip) all fail, and the filesystem is left unchanged. -/
theorem no_clobber (fs : SpoolState) (txn : SpoolTxn) (k : SpoolKey)
    (hk : txn.key = some k) :
    (txn.status = Status.TMP → k.bytes ∈ fs.new →
      (spooldir_commit fs txn).retval = -1 ∧ (spooldir_commit fs txn).fs = fs) ∧
    (txn.status = Status.WIP → k.bytes ∈ fs.cur →
      (spooldir_commit fs txn).retval = -1 ∧ (spooldir_commit fs txn).fs = fs) ∧
    (txn.status = Status.WIP → k.bytes ∈ fs.new →
      (spooldir_rollback fs txn).retval = -1 ∧ (spooldir_rollback fs txn).fs = fs) ∧
    (∀ (o : RelinkOracle) (name : String) (s : RelinkState), name ∈ s.dst →
      ∃ e : Nat, relink_and_open o name s = .err (-(e : Int)) e s false) := by
  refine ⟨?_, ?_, ?_, ?_⟩
  · intro hs hnew
    by_cases htmp : k.bytes ∈ fs.tmp <;>
      simp [spooldir_commit, hs, hk, renameat, htmp, hnew, releaseTxn]
  · intro hs hcur
    by_cases hwip : k.bytes ∈ fs.wip <;>
      simp [spooldir_commit, hs, hk, renameat, hwip, hcur, releaseTxn]
  · intro hs hnew
    by_cases hwip : k.bytes ∈ fs.wip <;>
      simp [spooldir_rollback, hs, hk, renameat, hwip, hnew, releaseTxn]
  · intro o name s hdst
    exact relink_dst_guard o name s hdst

/-- Concrete instantiation of no_clobber: with "a" already published in
new, committing a second TMP transaction that collides on "a" fails and
leaves the spool unchanged. -/
theorem no_clobber_witness :
    (spooldir_commit { tmp := {"a"}, new := {"a"}, wip := ∅, cur := ∅ }
        { status := Status.TMP, key := some ⟨"a", true⟩, fd := 3 }).retval = -1 ∧
    (spooldir_commit { tmp := {"a"}, new := {"a"}, wip := ∅, cur := ∅ }
        { status := Status.TMP, key := some ⟨"a", true⟩, fd := 3 }).fs =
      { tmp := {"a"}, new := {"a"}, wip := ∅, cur := ∅ } :=
  (no_clobber { tmp := {"a"}, new := {"a"}, wip := ∅, cur := ∅ }
    { status := Status.TMP, key := some ⟨"a", true⟩, fd := 3 } ⟨"a", true⟩ rfl).1
    rfl (by simp)

/-- dirent d_type values as used by the pick scan: DT_REG, DT_UNKNOWN, or
anything else (symlinks, directories, ...). -/
inductive DType where
  | reg
  | unknown
  | other
deriving DecidableEq, Repr

/-- File type as reported by fstatat via S_ISREG. -/
inductive FileType where
  | regular
  | directory
  | other
deriving DecidableEq, Repr

/-- Outcome of the fstatat fallback on one directory entry: the file
type, or the errno of a failed stat. -/
inductive StatRes where
  | ok (ft : FileType)
  | fail (errno : Nat)
deriving DecidableEq, Repr

/-- One entry yielded by readdir over the new directory: its name, the
d_type field, and what fstatat on it would report. -/
structure DirEntry where
  name : String
  dty : DType
  statRes : StatRes
deriving DecidableEq

/-- The hidden-file check of the scan, de->d_name[0] == '.' at
spooldir.c:556. -/
def isHidden (name : String) : Bool :=
  match name.data with
  | [] => false
  | c :: _ => c = '.'

/-- Failure injection for the calls spooldir_pick makes before the scan
loop (dup and fdopendir), plus the relink oracle for the claim step. -/
structure PickOracle where
  dupFail : Option Nat
  fdopendirFail : Option Nat
  relink : RelinkOracle
deriving DecidableEq

/-- Result of spooldir_pick: C return value, errno on return, the
transaction, the new/wip directory pair, and (on success) which entry
name was opened under wip and whether the handle is read/write. -/
structure PickRet where
  retval : Int
  errno : Nat
  txn : SpoolTxn
  fs : RelinkState
  openedAt : Option (String × Bool)
deriving DecidableEq

/-- The claim step of the scan (spooldir.c:572-577): relink the chosen
entry from new to wip; on success build the transaction (status WIP, an
owned copy of the entry name via spoolkey_new_from_string(name, true,
true), and the read/write descriptor); on failure store the negative
return in txn->fd and report the error. -/
def pickClaim (o : RelinkOracle) (s : RelinkState) (txn : SpoolTxn) (e : DirEntry) : PickRet :=
  match relink_and_open o e.name s with
  | .ok fd rw s2 =>
    { retval := 0, errno := 0
      txn := { status := Status.WIP
               key := some (spoolkey_new_from_string e.name true true)
               fd := fd }
      fs := s2
      openedAt := some (e.name, rw) }
  | .err r er s2 _ =>
    { retval := -1, errno := er, txn := { txn with fd := r }, fs := s2, openedAt := none }

/-- The readdir loop of spooldir_pick (spooldir.c:549-570): exhaustion
yields EOF with errno 0; hidden names are skipped; DT_UNKNOWN entries get
an fstatat fallback whose failure aborts the scan and whose non-regular
answer skips the entry; the first DT_REG entry is claimed. -/
def pickLoop (o : RelinkOracle) (s : RelinkState) (txn : SpoolTxn) : List DirEntry → PickRet
  | [] => { retval := CEOF, errno := 0, txn := txn, fs := s, openedAt := none }
  | e :: rest =>
    if isHidden e.name then pickLoop o s txn rest
    else
      match e.dty with
      | .unknown =>
        match e.statRes with
        | .fail er => { retval := -1, errno := er, txn := txn, fs := s, openedAt := none }
        | .ok ft =>
          if ft = FileType.regular then pickClaim o s txn e
          else pickLoop o s txn rest
      | .reg => pickClaim o s txn e
      | .other => pickLoop o s txn rest

/-- spooldir_pick (spooldir.c:529-589): duplicate the new-directory
handle, open a private iteration over it, then run the scan loop. -/
def spooldir_pick (o : PickOracle) (entries : List DirEntry) (s : RelinkState)
    (txn : SpoolTxn) : PickRet :=
  match o.dupFail with
  | some e => { retval := -1, errno := e, txn := txn, fs := s, openedAt := none }
  | none =>
    match o.fdopendirFail with
    | some e => { retval := -1, errno := e, txn := txn, fs := s, openedAt := none }
    | none => pickLoop o.relink s txn entries

/-- An entry the scan passes over: hidden, of a known non-regular type,
or of unknown type with a successful stat reporting a non-regular file. -/
def entrySkipped (e : DirEntry) : Prop :=
  isHidden e.name = true ∨ e.dty = DType.other ∨
    (e.dty = DType.unknown ∧ ∃ ft, e.statRes = StatRes.ok ft ∧ ft ≠ FileType.regular)

/-- An entry the scan claims: not hidden, and a regular file either by
d_type or by the fstatat fallback. -/
def entryClaims (e : DirEntry) : Prop :=
  isHidden e.name = false ∧
    (e.dty = DType.reg ∨ (e.dty = DType.unknown ∧ e.statRes = StatRes.ok FileType.regular))

/-- Successful relink_and_open moved the entry: it is gone from the
source, present at the destination, and the returned descriptor is a
read/write handle (nonnegative, rw flag set). -/
theorem relink_and_open_ok (o : RelinkOracle) (name : String) (s : RelinkState)
    (fd : Int) (rw : Bool) (s2 : RelinkState)
    (h : relink_and_open o name s = .ok fd rw s2) :
    s2.src = s.src.erase name ∧ s2.dst = insert name s.dst ∧
      rw = true ∧ 0 ≤ fd ∧ name ∈ s2.dst ∧ name ∉ s2.src := by
  by_cases hsrc : name ∈ s.src
  · by_cases hdst : name ∈ s.dst
    · simp [relink_and_open, linkat, hsrc, hdst] at h
    · cases hlf : o.linkFail with
      | some e0 => simp [relink_and_open, linkat, hsrc, hdst, hlf] at h
      | none =>
        cases hof : o.openFail with
        | some e1 => simp [relink_and_open, linkat, openatDst, hsrc, hdst, hlf, hof] at h
        | none =>
          cases huf : o.unlinkFail with
          | some e2 =>
            simp [relink_and_open, linkat, openatDst, unlinkatSrc, hsrc, hdst, hlf, hof,
              huf] at h
          | none =>
            simp [relink_and_open, linkat, openatDst, unlinkatSrc, hsrc, hdst, hlf, hof,
              huf] at h
            obtain ⟨hfd, hrw, hs2⟩ := h
            subst hs2
            refine ⟨rfl, rfl, hrw, by rw [← hfd]; norm_num, by simp, by simp⟩
  · simp [relink_and_open, linkat, hsrc] at h

/-- A successful scan claims the first non-skipped entry: the entry list
splits into a skipped prefix, the claimed entry, and the rest, and the
loop's value is the claim step on that entry. -/
theorem pickLoop_success_shape (o : RelinkOracle) (s : RelinkState) (txn : SpoolTxn) :
    ∀ entries : List DirEntry, (pickLoop o s txn entries).retval = 0 →
      ∃ pre e post, entries = pre ++ e :: post ∧ (∀ e2 ∈ pre, entrySkipped e2) ∧
        entryClaims e ∧ pickLoop o s txn entries = pickClaim o s txn e := by
  intro entries
  induction entries with
  | nil =>
    intro h
    simp [pickLoop, CEOF] at h
  | cons e rest ih =>
    intro h
    by_cases hh : isHidden e.name = true
    · have hred : pickLoop o s txn (e :: rest) = pickLoop o s txn rest := by
        simp [pickLoop, hh]
      rw [hred] at h
      obtain ⟨pre, e1, post, heq, hskip, hcl, hval⟩ := ih h
      refine ⟨e :: pre, e1, post, by simp [heq], ?_, hcl, by rw [hred, hval]⟩
      intro e2 he2
      rcases List.mem_cons.mp he2 with h1 | h1
      · subst h1
        exact Or.inl hh
      · exact hskip e2 h1
    · have hh2 : isHidden e.name = false := by simpa using hh
      cases hd : e.dty with
      | reg =>
        have hred : pickLoop o s txn (e :: rest) = pickClaim o s txn e := by
          simp [pickLoop, hh2, hd]
        exact ⟨[], e, rest, rfl, by simp, ⟨hh2, Or.inl hd⟩, hred⟩
      | unknown =>
        cases hst : e.statRes with
        | fail er =>
          have hred : pickLoop o s txn (e :: rest) =
              { retval := -1, errno := er, txn := txn, fs := s, openedAt := none } := by
            simp [pickLoop, hh2, hd, hst]
          rw [hred] at h
          simp at h
        | ok ft =>
          by_cases hft : ft = FileType.regular
          · subst hft
            have hred : pickLoop o s txn (e :: rest) = pickClaim o s txn e := by
              simp [pickLoop, hh2, hd, hst]
            exact ⟨[], e, rest, rfl, by simp, ⟨hh2, Or.inr ⟨hd, hst⟩⟩, hred⟩
          · have hred : pickLoop o s txn (e :: rest) = pickLoop o s txn rest := by
              simp [pickLoop, hh2, hd, hst, hft]
            rw [hred] at h
            obtain ⟨pre, e1, post, heq, hskip, hcl, hval⟩ := ih h
            refine ⟨e :: pre, e1, post, by simp [heq], ?_, hcl, by rw [hred, hval]⟩
            intro e2 he2
            rcases List.mem_cons.mp he2 with h1 | h1
            · subst h1
              exact Or.inr (Or.inr ⟨hd, ft, hst, hft⟩)
            · exact hskip e2 h1
      | other =>
        have hred : pickLoop o s txn (e :: rest) = pickLoop o s txn rest := by
          simp [pickLoop, hh2, hd]
        rw [hred] at h
        obtain ⟨pre, e1, post, heq, hskip, hcl, hval⟩ := ih h
        refine ⟨e :: pre, e1, post, by simp [heq], ?_, hcl, by rw [hred, hval]⟩
        intro e2 he2
        rcases List.mem_cons.mp he2 with h1 | h1
        · subst h1
          exact Or.inr (Or.inl hd)
        · exact hskip e2 h1

/-- C5: when pick succeeds it has claimed the first eligible entry of the
scan: every earlier entry was hidden or not a regular file (via d_type or
the explicit fstatat fallback); the returned transaction has status WIP,
its key is an owned copy of the claimed entry's name, and its descriptor
is a nonnegative read/write handle to the entry now present in the wip
directory and gone from new. -/
theorem pick_success (o : PickOracle) (entries : List DirEntry) (s : RelinkState)
    (txn : SpoolTxn) (h : (spooldir_pick o entries s txn).retval = 0) :
    ∃ pre e post,
      entries = pre ++ e :: post ∧
      (∀ e2 ∈ pre, entrySkipped e2) ∧
      entryClaims e ∧
      (spooldir_pick o entries s txn).txn.status = Status.WIP ∧
      (spooldir_pick o entries s txn).txn.key =
        some (spoolkey_new_from_string e.name true true) ∧
      (spooldir_pick o entries s txn).txn.key = some { bytes := e.name, copied := true } ∧
      0 ≤ (spooldir_pick o entries s txn).txn.fd ∧
      (spooldir_pick o entries s txn).openedAt = some (e.name, true) ∧
      e.name ∈ (spooldir_pick o entries s txn).fs.dst ∧
      e.name ∉ (spooldir_pick o entries s txn).fs.src := by
  cases hdup : o.dupFail with
  | some e0 =>
    rw [spooldir_pick, hdup] at h
    simp at h
  | none =>
    cases hop : o.fdopendirFail with
    | some e0 =>
      rw [spooldir_pick, hdup, hop] at h
      simp at h
    | none =>
      have hpick : spooldir_pick o entries s txn = pickLoop o.relink s txn entries := by
        rw [spooldir_pick, hdup, hop]
      rw [hpick] at h ⊢
      obtain ⟨pre, e, post, heq, hskip, hcl, hval⟩ := pickLoop_success_shape o.relink s txn entries h
      rw [hval] at h ⊢
      cases hr : relink_and_open o.relink e.name s with
      | err r er s2 hp =>
        rw [pickClaim, hr] at h
        simp at h
      | ok fd rw s2 =>
        obtain ⟨hsrc2, hdst2, hrw, hfd, hmem, hnmem⟩ := relink_and_open_ok _ _ _ _ _ _ hr
        subst hrw
        refine ⟨pre, e, post, heq, hskip, hcl, ?_, ?_, ?_, ?_, ?_, ?_, ?_⟩ <;>
          simp [pickClaim, hr, spoolkey_new_from_string, hfd, hmem, hnmem]

/-- Concrete instantiation of pick_success: a scan over a hidden entry, a
directory entry, and a regular entry "k" claims "k" and returns a WIP
transaction holding an owned copy of "k" and a handle into wip. -/
theorem pick_success_witness :
    ∃ pre e post,
      ([⟨".h", DType.reg, StatRes.ok FileType.regular⟩,
        ⟨"d", DType.other, StatRes.ok FileType.directory⟩,
        ⟨"k", DType.unknown, StatRes.ok FileType.regular⟩] : List DirEntry)
        = pre ++ e :: post ∧
      (∀ e2 ∈ pre, entrySkipped e2) ∧
      entryClaims e ∧
      (spooldir_pick ⟨none, none, ⟨none, none, none⟩⟩
        [⟨".h", DType.reg, StatRes.ok FileType.regular⟩,
         ⟨"d", DType.other, StatRes.ok FileType.directory⟩,
         ⟨"k", DType.unknown, StatRes.ok FileType.regular⟩]
        { src := {"k"}, dst := ∅ }
        { status := Status.FIN, key := none, fd := -1 }).txn.status = Status.WIP ∧
      (spooldir_pick ⟨none, none, ⟨none, none, none⟩⟩
        [⟨".h", DType.reg, StatRes.ok FileType.regular⟩,
         ⟨"d", DType.other, StatRes.ok FileType.directory⟩,
         ⟨"k", DType.unknown, StatRes.ok FileType.regular⟩]
        { src := {"k"}, dst := ∅ }
        { status := Status.FIN, key := none, fd := -1 }).txn.key =
          some (spoolkey_new_from_string e.name true true) ∧
      (spooldir_pick ⟨none, none, ⟨none, none, none⟩⟩
        [⟨".h", DType.reg, StatRes.ok FileType.regular⟩,
         ⟨"d", DType.other, StatRes.ok FileType.directory⟩,
         ⟨"k", DType.unknown, StatRes.ok FileType.regular⟩]
        { src := {"k"}, dst := ∅ }
        { status := Status.FIN, key := none, fd := -1 }).txn.key =
          some { bytes := e.name, copied := true } ∧
      0 ≤ (spooldir_pick ⟨none, none, ⟨none, none, none⟩⟩
        [⟨".h", DType.reg, StatRes.ok FileType.regular⟩,
         ⟨"d", DType.other, StatRes.ok FileType.directory⟩,
         ⟨"k", DType.unknown, StatRes.ok FileType.regular⟩]
        { src := {"k"}, dst := ∅ }
        { status := Status.FIN, key := none, fd := -1 }).txn.fd ∧
      (spooldir_pick ⟨none, none, ⟨none, none, none⟩⟩
        [⟨".h", DType.reg, StatRes.ok FileType.regular⟩,
         ⟨"d", DType.other, StatRes.ok FileType.directory⟩,
         ⟨"k", DType.unknown, StatRes.ok FileType.regular⟩]
        { src := {"k"}, dst := ∅ }
        { status := Status.FIN, key := none, fd := -1 }).openedAt = some (e.name, true) ∧
      e.name ∈ (spooldir_pick ⟨none, none, ⟨none, none, none⟩⟩
        [⟨".h", DType.reg, StatRes.ok FileType.regular⟩,
         ⟨"d", DType.other, StatRes.ok FileType.directory⟩,
         ⟨"k", DType.unknown, StatRes.ok FileType.regular⟩]
        { src := {"k"}, dst := ∅ }
        { status := Status.FIN, key := none, fd := -1 }).fs.dst ∧
      e.name ∉ (spooldir_pick ⟨none, none, ⟨none, none, none⟩⟩
        [⟨".h", DType.reg, StatRes.ok FileType.regular⟩,
         ⟨"d", DType.other, StatRes.ok FileType.directory⟩,
         ⟨"k", DType.unknown, StatRes.ok FileType.regular⟩]
        { src := {"k"}, dst := ∅ }
        { status := Status.FIN, key := none, fd := -1 }).fs.src :=
  pick_success ⟨none, none, ⟨none, none, none⟩⟩
    [⟨".h", DType.reg, StatRes.ok FileType.regular⟩,
     ⟨"d", DType.other, StatRes.ok FileType.directory⟩,
     ⟨"k", DType.unknown, StatRes.ok FileType.regular⟩]
    { src := {"k"}, dst := ∅ }
    { status := Status.FIN, key := none, fd := -1 } (by decide)

/-- Error codes reported by the modelled filesystem calls are nonzero,
as POSIX errno values are: each injected oracle failure and each failing
per-entry stat carries a nonzero errno. -/
def PickErrnosValid (o : PickOracle) (entries : List DirEntry) : Prop :=
  (∀ e, o.dupFail = some e → e ≠ 0) ∧
  (∀ e, o.fdopendirFail = some e → e ≠ 0) ∧
  (∀ e, o.relink.linkFail = some e → e ≠ 0) ∧
  (∀ e, o.relink.openFail = some e → e ≠ 0) ∧
  (∀ e, o.relink.unlinkFail = some e → e ≠ 0) ∧
  (∀ ent ∈ entries, ∀ er, ent.statRes = StatRes.fail er → er ≠ 0)

/-- A failing relink reports a nonzero errno: either one of the modelled
name conditions (ENOENT, EEXIST) or an injected nonzero oracle errno. -/
theorem relink_and_open_err_errno (o : RelinkOracle) (name : String) (s : RelinkState)
    (r : Int) (er : Nat) (s2 : RelinkState) (hp : Bool)
    (h1 : ∀ e, o.linkFail = some e → e ≠ 0)
    (h2 : ∀ e, o.openFail = some e → e ≠ 0)
    (h3 : ∀ e, o.unlinkFail = some e → e ≠ 0)
    (h : relink_and_open o name s = .err r er s2 hp) : er ≠ 0 := by
  by_cases hsrc : name ∈ s.src
  · by_cases hdst : name ∈ s.dst
    · simp [relink_and_open, linkat, hsrc, hdst] at h
      obtain ⟨-, her, -⟩ := h
      rw [← her]
      simp [EEXIST]
    · cases hlf : o.linkFail with
      | some e0 =>
        simp [relink_and_open, linkat, hsrc, hdst, hlf] at h
        obtain ⟨-, her, -⟩ := h
        rw [← her]
        exact h1 e0 hlf
      | none =>
        cases hof : o.openFail with
        | some e1 =>
          simp [relink_and_open, linkat, openatDst, hsrc, hdst, hlf, hof] at h
          obtain ⟨-, her, -⟩ := h
          rw [← her]
          exact h2 e1 hof
        | none =>
          cases huf : o.unlinkFail with
          | some e2 =>
            simp [relink_and_open, linkat, openatDst, unlinkatSrc, hsrc, hdst, hlf, hof,
              huf] at h
            obtain ⟨-, her, -⟩ := h
            rw [← her]
            exact h3 e2 huf
          | none =>
            simp [relink_and_open, linkat, openatDst, unlinkatSrc, hsrc, hdst, hlf, hof,
              huf] at h
  · simp [relink_and_open, linkat, hsrc] at h
    obtain ⟨-, her, -⟩ := h
    rw [← her]
    simp [ENOENT]

/-- A scan over only skippable entries terminates with the distinguished
exhaustion result: EOF and errno 0, no transaction change. -/
theorem pickLoop_exhaust (o : RelinkOracle) (s : RelinkState) (txn : SpoolTxn) :
    ∀ entries : List DirEntry, (∀ e ∈ entries, entrySkipped e) →
      pickLoop o s txn entries =
        { retval := CEOF, errno := 0, txn := txn, fs := s, openedAt := none } := by
  intro entries
  induction entries with
  | nil => intro _; rfl
  | cons e rest ih =>
    intro hs
    have he := hs e (by simp)
    have hrest : ∀ e2 ∈ rest, entrySkipped e2 := fun e2 h2 => hs e2 (by simp [h2])
    rcases he with hh | hd | ⟨hd, ft, hst, hft⟩
    · rw [show pickLoop o s txn (e :: rest) = pickLoop o s txn rest by simp [pickLoop, hh]]
      exact ih hrest
    · by_cases hh : isHidden e.name = true
      · rw [show pickLoop o s txn (e :: rest) = pickLoop o s txn rest by simp [pickLoop, hh]]
        exact ih hrest
      · have hh2 : isHidden e.name = false := by simpa using hh
        rw [show pickLoop o s txn (e :: rest) = pickLoop o s txn rest by
          simp [pickLoop, hh2, hd]]
        exact ih hrest
    · by_cases hh : isHidden e.name = true
      · rw [show pickLoop o s txn (e :: rest) = pickLoop o s txn rest by simp [pickLoop, hh]]
        exact ih hrest
      · have hh2 : isHidden e.name = false := by simpa using hh
        rw [show pickLoop o s txn (e :: rest) = pickLoop o s txn rest by
          simp [pickLoop, hh2, hd, hst, hft]]
        exact ih hrest

/-- Every scan outcome falls into one of three classes: success (0), the
distinguished exhaustion result (EOF with errno 0), or a failure carrying
a nonzero errno. -/
theorem pickLoop_classify (o : RelinkOracle) (s : RelinkState) (txn : SpoolTxn)
    (h1 : ∀ e, o.linkFail = some e → e ≠ 0)
    (h2 : ∀ e, o.openFail = some e → e ≠ 0)
    (h3 : ∀ e, o.unlinkFail = some e → e ≠ 0) :
    ∀ entries : List DirEntry,
      (∀ ent ∈ entries, ∀ er, ent.statRes = StatRes.fail er → er ≠ 0) →
      (pickLoop o s txn entries).retval = 0 ∨
      ((pickLoop o s txn entries).retval = CEOF ∧ (pickLoop o s txn entries).errno = 0) ∨
      (pickLoop o s txn entries).errno ≠ 0 := by
  intro entries
  induction entries with
  | nil =>
    intro _
    right
    left
    exact ⟨rfl, rfl⟩
  | cons e rest ih =>
    intro hstat
    have hrest : ∀ ent ∈ rest, ∀ er, ent.statRes = StatRes.fail er → er ≠ 0 :=
      fun ent hm => hstat ent (by simp [hm])
    have hclaim : (pickClaim o s txn e).retval = 0 ∨ (pickClaim o s txn e).errno ≠ 0 := by
      cases hr : relink_and_open o e.name s with
      | ok fd rw s2 =>
        left
        simp [pickClaim, hr]
      | err r er s2 hp =>
        right
        simpa [pickClaim, hr] using
          relink_and_open_err_errno o e.name s r er s2 hp h1 h2 h3 hr
    by_cases hh : isHidden e.name = true
    · rw [show pickLoop o s txn (e :: rest) = pickLoop o s txn rest by simp [pickLoop, hh]]
      exact ih hrest
    · have hh2 : isHidden e.name = false := by simpa using hh
      cases hd : e.dty with
      | reg =>
        rw [show pickLoop o s txn (e :: rest) = pickClaim o s txn e by
          simp [pickLoop, hh2, hd]]
        rcases hclaim with hc | hc
        · exact Or.inl hc
        · exact Or.inr (Or.inr hc)
      | unknown =>
        cases hst : e.statRes with
        | fail er =>
          rw [show pickLoop o s txn (e :: rest) =
              { retval := -1, errno := er, txn := txn, fs := s, openedAt := none } by
            simp [pickLoop, hh2, hd, hst]]
          exact Or.inr (Or.inr (hstat e (by simp) er hst))
        | ok ft =>
          by_cases hft : ft = FileType.regular
          · subst hft
            rw [show pickLoop o s txn (e :: rest) = pickClaim o s txn e by
              simp [pickLoop, hh2, hd, hst]]
            rcases hclaim with hc | hc
            · exact Or.inl hc
            · exact Or.inr (Or.inr hc)
          · rw [show pickLoop o s txn (e :: rest) = pickLoop o s txn rest by
              simp [pickLoop, hh2, hd, hst, hft]]
            exact ih hrest
      | other =>
        rw [show pickLoop o s txn (e :: rest) = pickLoop o s txn rest by
          simp [pickLoop, hh2, hd]]
        exact ih hrest

/-- C6: when no eligible entry exists, pick returns the distinguished
no-item result, EOF with errno 0; every pick outcome is either success,
that no-item result, or a failure with nonzero errno, so the caller can
tell the no-item result from an operation failure; and the invalid-state
programmer error of commit carries the nonzero errno EINVAL, so the
no-item result is distinguishable from it as well. -/
theorem pick_no_item_distinguished (o : PickOracle) (entries : List DirEntry)
    (s : RelinkState) (txn : SpoolTxn) (hwf : PickErrnosValid o entries) :
    ((∀ e ∈ entries, entrySkipped e) → o.dupFail = none → o.fdopendirFail = none →
       (spooldir_pick o entries s txn).retval = CEOF ∧
       (spooldir_pick o entries s txn).errno = 0) ∧
    ((spooldir_pick o entries s txn).retval = 0 ∨
      ((spooldir_pick o entries s txn).retval = CEOF ∧
       (spooldir_pick o entries s txn).errno = 0) ∨
      (spooldir_pick o entries s txn).errno ≠ 0) ∧
    (∀ (fs2 : SpoolState) (txn2 : SpoolTxn),
       txn2.status = Status.NEW ∨ txn2.status = Status.CUR ∨ txn2.status = Status.FIN →
       (spooldir_commit fs2 txn2).errno = EINVAL) ∧
    EINVAL ≠ 0 := by
  obtain ⟨hw1, hw2, hw3, hw4, hw5, hw6⟩ := hwf
  refine ⟨?_, ?_, ?_, by simp [EINVAL]⟩
  · intro hskip hdup hop
    rw [spooldir_pick, hdup, hop, pickLoop_exhaust o.relink s txn entries hskip]
    exact ⟨rfl, rfl⟩
  · cases hdup : o.dupFail with
    | some e0 =>
      rw [spooldir_pick, hdup]
      exact Or.inr (Or.inr (hw1 e0 hdup))
    | none =>
      cases hop : o.fdopendirFail with
      | some e0 =>
        rw [spooldir_pick, hdup, hop]
        exact Or.inr (Or.inr (hw2 e0 hop))
      | none =>
        rw [spooldir_pick, hdup, hop]
        exact pickLoop_classify o.relink s txn hw3 hw4 hw5 entries hw6
  · intro fs2 txn2 hs
    rcases hs with hs | hs | hs <;>
      simp [spooldir_commit, hs, invalidStateResult]

/-- Concrete instantiation of pick_no_item_distinguished: a scan over a
new directory containing only a hidden entry returns EOF with errno 0. -/
theorem pick_no_item_distinguished_witness :
    (spooldir_pick ⟨none, none, ⟨none, none, none⟩⟩
        [⟨".h", DType.reg, StatRes.ok FileType.regular⟩]
        { src := ∅, dst := ∅ }
        { status := Status.FIN, key := none, fd := -1 }).retval = CEOF ∧
    (spooldir_pick ⟨none, none, ⟨none, none, none⟩⟩
        [⟨".h", DType.reg, StatRes.ok FileType.regular⟩]
        { src := ∅, dst := ∅ }
        { status := Status.FIN, key := none, fd := -1 }).errno = 0 :=
  (pick_no_item_distinguished ⟨none, none, ⟨none, none, none⟩⟩
    [⟨".h", DType.reg, StatRes.ok FileType.regular⟩]
    { src := ∅, dst := ∅ }
    { status := Status.FIN, key := none, fd := -1 }
    (by refine ⟨?_, ?_, ?_, ?_, ?_, ?_⟩ <;> simp)).1
    (by intro e he; simp at he; subst he; exact Or.inl (by decide)) rfl rfl

/-- Range of the 64-bit generation counter (rng->count is a uint64_t). -/
def U64 : Nat := 2 ^ 64

/-- Per-worker generator state, struct rng: the random seed is threaded
separately; the 64-bit counter starts at 0 (the struct is calloc'd). -/
structure Rng where
  count : Nat

/-- spoolkey_new (spooldir.c:155-175): digest the current counter value
under the seed, increment the 64-bit counter (wrapping mod 2^64), and
hex-encode the digest into the identifier string.  The keyed digest
(vendored hmac-sha256/) and hex encoder (vendored hexify/) are not part
of the core sources and are passed in as functions, per the spec's
collaborator interfaces. -/
def spoolkey_new {α σ : Type} (hmac : σ → Nat → α) (hexify : α → String)
    (seed : σ) (r : Rng) : String × Rng :=
  (hexify (hmac seed (r.count % U64)), { count := (r.count + 1) % U64 })

/-- Generator state after n spoolkey_new calls from the fresh (calloc'd)
state. -/
def rngIter {α σ : Type} (hmac : σ → Nat → α) (hexify : α → String) (seed : σ) :
    Nat → Rng
  | 0 => { count := 0 }
  | n + 1 => (spoolkey_new hmac hexify seed (rngIter hmac hexify seed n)).2

/-- The identifier produced by the (n+1)-th spoolkey_new call of one
worker. -/
def nthKey {α σ : Type} (hmac : σ → Nat → α) (hexify : α → String) (seed : σ)
    (n : Nat) : String :=
  (spoolkey_new hmac hexify seed (rngIter hmac hexify seed n)).1

/-- The counter value fed to the keyed digest by the (n+1)-th call. -/
def fedCounter {α σ : Type} (hmac : σ → Nat → α) (hexify : α → String) (seed : σ)
    (n : Nat) : Nat :=
  (rngIter hmac hexify seed n).count % U64

/-- The counter after n calls is n reduced modulo 2^64. -/
theorem rngIter_count {α σ : Type} (hmac : σ → Nat → α) (hexify : α → String)
    (seed : σ) (n : Nat) :
    (rngIter hmac hexify seed n).count = n % U64 := by
  induction n with
  | zero => simp [rngIter]
  | succ m ih =>
    show ((rngIter hmac hexify seed m).count + 1) % U64 = (m + 1) % U64
    rw [ih]
    conv_rhs => rw [Nat.add_mod]
    norm_num [U64]

/-- Each call feeds its counter value reduced modulo 2^64. -/
theorem fedCounter_eq {α σ : Type} (hmac : σ → Nat → α) (hexify : α → String)
    (seed : σ) (n : Nat) :
    fedCounter hmac hexify seed n = n % U64 := by
  rw [fedCounter, rngIter_count, Nat.mod_mod_of_dvd _ dvd_rfl]

/-- The identifier of the (n+1)-th call is the hex-encoded digest of the
counter value n mod 2^64. -/
theorem nthKey_eq {α σ : Type} (hmac : σ → Nat → α) (hexify : α → String)
    (seed : σ) (n : Nat) :
    nthKey hmac hexify seed n = hexify (hmac seed (n % U64)) := by
  rw [nthKey, spoolkey_new, rngIter_count, Nat.mod_mod_of_dvd _ dvd_rfl]

/-- Modelled from the spec: a deterministic keyed digest standing in for
the vendored hmac-sha256 primitive, which is not under the core sources;
the core needs only digest(key_bytes, message_bytes). -/
def hmacModel (seed : List Nat) (msg : Nat) : List Nat :=
  seed ++ [msg]

/-- Modelled from the spec: an encoding of digest bytes to a string
standing in for the vendored hexify, which is not under the core
sources. -/
def hexifyModel (digest : List Nat) : String :=
  String.intercalate "-" (digest.map (fun n => Nat.repr n))

/-- C9 counterexample: the claim fails as stated for N = 2^64 + 1
sequential calls, because the uint64_t counter wraps: call 0 and call
2^64 feed the same counter value 0 to the digest and hence produce the
same identifier. -/
theorem spoolkey_new_unique_counterexample :
    ¬ (∀ i j : Nat, i < U64 + 1 → j < U64 + 1 → i ≠ j →
        nthKey hmacModel hexifyModel [] i ≠ nthKey hmacModel hexifyModel [] j) := by
  intro h
  refine h 0 U64 (by omega) (by omega) (by simp [U64]) ?_
  rw [nthKey_eq, nthKey_eq, Nat.zero_mod, Nat.mod_self]

/-- C9 (amended): for every N up to 2^64, the N sequential spoolkey_new
calls of one worker feed pairwise-distinct counter values to the keyed
digest; and whenever the hex-encoded digest is injective on those counter
values, the N identifiers are pairwise distinct as well. -/
theorem spoolkey_new_sequential_unique {α σ : Type} (hmac : σ → Nat → α)
    (hexify : α → String) (seed : σ) (N i j : Nat)
    (hN : N ≤ U64) (hi : i < N) (hj : j < N) (hij : i ≠ j)
    (hinj : ∀ a, a < N → ∀ b, b < N →
      hexify (hmac seed a) = hexify (hmac seed b) → a = b) :
    fedCounter hmac hexify seed i ≠ fedCounter hmac hexify seed j ∧
    nthKey hmac hexify seed i ≠ nthKey hmac hexify seed j := by
  have hiU : i % U64 = i := Nat.mod_eq_of_lt (lt_of_lt_of_le hi hN)
  have hjU : j % U64 = j := Nat.mod_eq_of_lt (lt_of_lt_of_le hj hN)
  constructor
  · rw [fedCounter_eq, fedCounter_eq, hiU, hjU]
    exact hij
  · rw [nthKey_eq, nthKey_eq, hiU, hjU]
    intro hkey
    exact hij (hinj i hi j hj hkey)

/-- Concrete instantiation of spoolkey_new_sequential_unique: with the
modelled digest and encoder, the first two calls feed distinct counters
and produce distinct identifiers. -/
theorem spoolkey_new_sequential_unique_witness :
    fedCounter hmacModel hexifyModel [] 0 ≠ fedCounter hmacModel hexifyModel [] 1 ∧
    nthKey hmacModel hexifyModel [] 0 ≠ nthKey hmacModel hexifyModel [] 1 :=
  spoolkey_new_sequential_unique hmacModel hexifyModel [] 2 0 1
    (by norm_num [U64]) (by norm_num) (by norm_num) (by norm_num)
    (by decide)

/-- The four directory descriptors a spooldir holds (struct _spooldir). -/
structure SpoolFds where
  dir_fd : Int
  tmp_fd : Int
  new_fd : Int
  wip_fd : Int
  cur_fd : Int

/-- status_to_fd (spooldir.c:346-357): maps a status to the matching
subdirectory descriptor; the default arm (reached only for FIN, which has
no backing directory) yields -1. -/
def status_to_fd (spool : SpoolFds) (status : Status) : Int :=
  match status with
  | .TMP => spool.tmp_fd
  | .WIP => spool.wip_fd
  | .NEW => spool.new_fd
  | .CUR => spool.cur_fd
  | .FIN => -1

/-- spooldir_has_status (spooldir.c:592-606): resolve the status to a
subdirectory descriptor; a negative descriptor answers false immediately,
otherwise fstatat the key in that subdirectory and check S_ISREG.  The
stat check is abstracted as a function of the descriptor and the name;
the second component records whether it was performed. -/
def spooldir_has_status (statQuery : Int → String → Bool) (spool : SpoolFds)
    (key : SpoolKey) (status : Status) : Bool × Bool :=
  let subdir_fd := status_to_fd spool status
  if subdir_fd < 0 then (false, false)
  else (statQuery subdir_fd key.bytes, true)

/-- C10: querying the FIN sentinel status maps to the -1 descriptor, so
the status query answers false without performing any filesystem check;
the same holds for any status whose resolved descriptor is negative. -/
theorem has_status_fin (statQuery : Int → String → Bool) (spool : SpoolFds)
    (key : SpoolKey) :
    status_to_fd spool Status.FIN = -1 ∧
    spooldir_has_status statQuery spool key Status.FIN = (false, false) ∧
    (∀ st : Status, status_to_fd spool st < 0 →
      spooldir_has_status statQuery spool key st = (false, false)) := by
  refine ⟨rfl, by simp [spooldir_has_status, status_to_fd], ?_⟩
  intro st h
  simp [spooldir_has_status, h]

/-- Concrete instantiation of has_status_fin: on a spool with valid
descriptors, the FIN query is false with no stat performed. -/
theorem has_status_fin_witness :
    spooldir_has_status (fun _ _ => true) ⟨0, 1, 2, 3, 4⟩ ⟨"a", true⟩ Status.FIN
      = (false, false) :=
  (has_status_fin (fun _ _ => true) ⟨0, 1, 2, 3, 4⟩ ⟨"a", true⟩).2.2
    Status.FIN (by decide)

/-- Whole-spool state for the reachability model: the four directories,
the set of keys currently mid-relink in a pick (after the linkat of
relink_and_open, before its unlinkat), and the ghost set of keys that
have ever been published (committed from TMP into new). -/
structure SpState where
  tmp : Finset String
  new : Finset String
  wip : Finset String
  cur : Finset String
  pending : Finset String
  published : Finset String

/-- One externally observable atomic filesystem transition of the
engine.  renameat transitions are single steps (renameat2 is atomic);
the pick relink is split into its observable sub-steps.  Side
conditions record what each underlying call requires to succeed:
failed calls change nothing and need no step.  The freshness conditions
of `add` model the collision-resistant key generator (spec section 4.1)
together with the O_CREAT|O_EXCL create; the `k ∉ pending` conditions
of the WIP transitions hold because a WIP transaction for k exists only
once its pick relink has completed. -/
inductive Step : SpState → SpState → Prop where
  | add (s : SpState) (k : String)
      (h1 : k ∉ s.tmp) (h2 : k ∉ s.new) (h3 : k ∉ s.wip) (h4 : k ∉ s.cur) :
      Step s { s with tmp := insert k s.tmp }
  | commit_tmp (s : SpState) (k : String) (h1 : k ∈ s.tmp) (h2 : k ∉ s.new) :
      Step s { s with tmp := s.tmp.erase k, new := insert k s.new, published := insert k s.published }
  | commit_wip (s : SpState) (k : String) (h1 : k ∈ s.wip) (h2 : k ∉ s.cur)
      (h3 : k ∉ s.pending) :
      Step s { s with wip := s.wip.erase k, cur := insert k s.cur }
  | rollback_tmp (s : SpState) (k : String) (h1 : k ∈ s.tmp) :
      Step s { s with tmp := s.tmp.erase k }
  | rollback_wip (s : SpState) (k : String) (h1 : k ∈ s.wip) (h2 : k ∉ s.new)
      (h3 : k ∉ s.pending) :
      Step s { s with wip := s.wip.erase k, new := insert k s.new }
  | pick_link (s : SpState) (k : String) (h1 : k ∈ s.new) (h2 : k ∉ s.wip) :
      Step s { s with wip := insert k s.wip, pending := insert k s.pending }
  | pick_unlink (s : SpState) (k : String) (h1 : k ∈ s.pending) :
      Step s { s with new := s.new.erase k, pending := s.pending.erase k }
  | pick_unwind (s : SpState) (k : String) (h1 : k ∈ s.pending) :
      Step s { s with wip := s.wip.erase k, pending := s.pending.erase k }

/-- Spool states reachable from a fresh, empty spool. -/
inductive Reach : SpState → Prop where
  | init : Reach ⟨∅, ∅, ∅, ∅, ∅, ∅⟩
  | step {s s2 : SpState} : Reach s → Step s s2 → Reach s2

/-- In how many of the four subdirectories the key is present. -/
def dirCount (s : SpState) (k : String) : Nat :=
  (if k ∈ s.tmp then 1 else 0) + (if k ∈ s.new then 1 else 0) +
    (if k ∈ s.wip then 1 else 0) + (if k ∈ s.cur then 1 else 0)

/-- The inductive invariant: a key mid-relink is exactly in new and wip;
any other key is in at most one subdirectory; a published key is in at
least one subdirectory and never back in tmp. -/
def Inv (s : SpState) : Prop :=
  ∀ k : String,
    (k ∈ s.pending → k ∈ s.new ∧ k ∈ s.wip ∧ k ∉ s.tmp ∧ k ∉ s.cur) ∧
    (k ∉ s.pending → dirCount s k ≤ 1) ∧
    (k ∈ s.published → 1 ≤ dirCount s k ∧ k ∉ s.tmp)

/-- The invariant holds in every reachable state. -/
theorem reach_inv (s : SpState) (hs : Reach s) : Inv s := by
  induction hs with
  | init =>
    intro k
    simp [dirCount]
  | @step s s2 hr hstep ih =>
    cases hstep with
    | add k h1 h2 h3 h4 =>
      intro k2
      obtain ⟨ih1, ih2, ih3⟩ := ih k2
      by_cases hk : k2 = k
      · subst hk
        by_cases t1 : k2 ∈ s.tmp <;> by_cases t2 : k2 ∈ s.new <;>
          by_cases t3 : k2 ∈ s.wip <;> by_cases t4 : k2 ∈ s.cur <;>
            by_cases t5 : k2 ∈ s.pending <;>
              simp_all [dirCount]
      · simp only [dirCount, Finset.mem_insert, hk, false_or]
        exact ⟨ih1, ih2, ih3⟩
    | commit_tmp k h1 h2 =>
      intro k2
      obtain ⟨ih1, ih2, ih3⟩ := ih k2
      by_cases hk : k2 = k
      · subst hk
        by_cases t3 : k2 ∈ s.wip <;> by_cases t4 : k2 ∈ s.cur <;>
          by_cases t5 : k2 ∈ s.pending <;>
            simp_all [dirCount]
      · simp only [dirCount, Finset.mem_insert, Finset.mem_erase, hk, false_or, ne_eq,
          not_false_eq_true, true_and]
        exact ⟨ih1, ih2, ih3⟩
    | commit_wip k h1 h2 h3 =>
      intro k2
      obtain ⟨ih1, ih2, ih3⟩ := ih k2
      by_cases hk : k2 = k
      · subst hk
        by_cases t1 : k2 ∈ s.tmp <;> by_cases t2 : k2 ∈ s.new <;>
          by_cases t5 : k2 ∈ s.pending <;>
            simp_all [dirCount]
      · simp only [dirCount, Finset.mem_insert, Finset.mem_erase, hk, false_or, ne_eq,
          not_false_eq_true, true_and]
        exact ⟨ih1, ih2, ih3⟩
    | rollback_tmp k h1 =>
      intro k2
      obtain ⟨ih1, ih2, ih3⟩ := ih k2
      by_cases hk : k2 = k
      · subst hk
        by_cases t2 : k2 ∈ s.new <;> by_cases t3 : k2 ∈ s.wip <;>
          by_cases t4 : k2 ∈ s.cur <;> by_cases t5 : k2 ∈ s.pending <;>
            by_cases t6 : k2 ∈ s.published <;>
              simp_all [dirCount]
      · simp only [dirCount, Finset.mem_erase, hk, ne_eq, not_false_eq_true, true_and]
        exact ⟨ih1, ih2, ih3⟩
    | rollback_wip k h1 h2 h3 =>
      intro k2
      obtain ⟨ih1, ih2, ih3⟩ := ih k2
      by_cases hk : k2 = k
      · subst hk
        by_cases t1 : k2 ∈ s.tmp <;> by_cases t4 : k2 ∈ s.cur <;>
          by_cases t5 : k2 ∈ s.pending <;>
            simp_all [dirCount]
      · simp only [dirCount, Finset.mem_insert, Finset.mem_erase, hk, false_or, ne_eq,
          not_false_eq_true, true_and]
        exact ⟨ih1, ih2, ih3⟩
    | pick_link k h1 h2 =>
      intro k2
      obtain ⟨ih1, ih2, ih3⟩ := ih k2
      by_cases hk : k2 = k
      · subst hk
        by_cases t1 : k2 ∈ s.tmp <;> by_cases t4 : k2 ∈ s.cur <;>
          by_cases t5 : k2 ∈ s.pending <;>
            simp_all [dirCount]
      · simp only [dirCount, Finset.mem_insert, hk, false_or]
        exact ⟨ih1, ih2, ih3⟩
    | pick_unlink k h1 =>
      intro k2
      obtain ⟨ih1, ih2, ih3⟩ := ih k2
      by_cases hk : k2 = k
      · subst hk
        by_cases t1 : k2 ∈ s.tmp <;> by_cases t2 : k2 ∈ s.new <;>
          by_cases t3 : k2 ∈ s.wip <;> by_cases t4 : k2 ∈ s.cur <;>
            simp_all [dirCount]
      · simp only [dirCount, Finset.mem_erase, hk, ne_eq, not_false_eq_true, true_and]
        exact ⟨ih1, ih2, ih3⟩
    | pick_unwind k h1 =>
      intro k2
      obtain ⟨ih1, ih2, ih3⟩ := ih k2
      by_cases hk : k2 = k
      · subst hk
        by_cases t1 : k2 ∈ s.tmp <;> by_cases t2 : k2 ∈ s.new <;>
          by_cases t3 : k2 ∈ s.wip <;> by_cases t4 : k2 ∈ s.cur <;>
            simp_all [dirCount]
      · simp only [dirCount, Finset.mem_erase, hk, ne_eq, not_false_eq_true, true_and]
        exact ⟨ih1, ih2, ih3⟩

/-- C4: in every reachable spool state, every key is present in at most
one of the four subdirectories, except that a key inside the transient
window of a single pick relink (pending) may be in exactly two; a key
can never be in more than two; and a published key is always present in
at least one subdirectory (no transition deletes published items). -/
theorem spool_item_location_invariant (s : SpState) (hs : Reach s) (k : String) :
    dirCount s k ≤ 2 ∧
    (k ∉ s.pending → dirCount s k ≤ 1) ∧
    (dirCount s k = 2 → k ∈ s.pending) ∧
    (k ∈ s.published → 1 ≤ dirCount s k) := by
  obtain ⟨h1, h2, h3⟩ := reach_inv s hs k
  by_cases hp : k ∈ s.pending
  · obtain ⟨hnew, hwip, hntmp, hncur⟩ := h1 hp
    have hc : dirCount s k = 2 := by
      simp [dirCount, hnew, hwip, hntmp, hncur]
    refine ⟨by omega, fun hnp => absurd hp hnp, fun _ => hp, fun _ => by omega⟩
  · have hc := h2 hp
    exact ⟨by omega, fun _ => hc, fun h => by omega, fun hpub => (h3 hpub).1⟩

/-- Concrete instantiation of spool_item_location_invariant: the state
reached by add "a" then commit (publish) satisfies the location bounds
for "a". -/
theorem spool_item_location_invariant_witness :
    dirCount ⟨Finset.erase {"a"} "a", {"a"}, ∅, ∅, ∅, {"a"}⟩ "a" ≤ 2 ∧
    ("a" ∉ (⟨Finset.erase {"a"} "a", {"a"}, ∅, ∅, ∅, {"a"}⟩ : SpState).pending →
      dirCount ⟨Finset.erase {"a"} "a", {"a"}, ∅, ∅, ∅, {"a"}⟩ "a" ≤ 1) ∧
    (dirCount ⟨Finset.erase {"a"} "a", {"a"}, ∅, ∅, ∅, {"a"}⟩ "a" = 2 →
      "a" ∈ (⟨Finset.erase {"a"} "a", {"a"}, ∅, ∅, ∅, {"a"}⟩ : SpState).pending) ∧
    ("a" ∈ (⟨Finset.erase {"a"} "a", {"a"}, ∅, ∅, ∅, {"a"}⟩ : SpState).published →
      1 ≤ dirCount ⟨Finset.erase {"a"} "a", {"a"}, ∅, ∅, ∅, {"a"}⟩ "a") :=
  spool_item_location_invariant _
    (Reach.step
      (Reach.step Reach.init
        (Step.add ⟨∅, ∅, ∅, ∅, ∅, ∅⟩ "a" (by simp) (by simp) (by simp) (by simp)))
      (Step.commit_tmp ⟨{"a"}, ∅, ∅, ∅, ∅, ∅⟩ "a" (by simp) (by simp)))
    "a"

end Spooldir
